import Mathlib

/-!
Verification development for the blog-writer pipeline repository.

The frontend data model is embedded from the TypeScript sources under
src/react_app (types/api.ts, lib/api.ts, the home page, the plan page and
PlanReviewScreen.tsx). The backend job store and drafter are not present in
the source tree; those definitions are modelled from the specification and
carry a doc comment saying so.
-/

namespace BlogWriter

/-- Job status enumeration, from types/api.ts: JobStatus has exactly the
three string values processing, completed, failed. -/
inductive JobStatus where
  | processing
  | completed
  | failed
deriving DecidableEq, Repr

/-- From types/api.ts: SubSection has a heading and a nullable description. -/
structure SubSection where
  heading : String
  description : Option String
deriving DecidableEq, Repr

/-- From types/api.ts: BlogSection has a heading, a nullable description and
an ordered list of subsections. -/
structure BlogSection where
  heading : String
  description : Option String
  subsections : List SubSection
deriving DecidableEq, Repr

/-- From types/api.ts: BlogPlan. -/
structure BlogPlan where
  title : String
  intro : Option String
  intro_length_guidance : String
  sections : List BlogSection
deriving DecidableEq, Repr

/-- From types/api.ts: PlanStatusResponse carries exactly the seven fields
job_id, status, keyword, created_at, updated_at, plan, error. -/
structure PlanStatusResponse where
  job_id : String
  status : JobStatus
  keyword : String
  created_at : String
  updated_at : String
  plan : Option BlogPlan
  error : Option String
deriving DecidableEq, Repr

/-- From types/api.ts: GeneratePlanRequest. -/
structure GeneratePlanRequest where
  keyword : String
deriving DecidableEq, Repr

/-- From types/api.ts: JobResponse. -/
structure JobResponse where
  job_id : String
  status : String
  message : String
deriving DecidableEq, Repr

/-- From types/api.ts: GenerateBlogRequest. -/
structure GenerateBlogRequest where
  plan : BlogPlan
  plan_job_id : Option String
deriving DecidableEq, Repr

/-- From types/api.ts: GeneratedBlogSection. -/
structure GeneratedBlogSection where
  index : Nat
  heading : String
  content : String
deriving DecidableEq, Repr

/-- From types/api.ts: BlogStatusResponse. -/
structure BlogStatusResponse where
  job_id : String
  status : JobStatus
  created_at : String
  updated_at : String
  blog : Option String
  error : Option String
  plan_job_id : Option String
  sections : Option (List GeneratedBlogSection)
deriving DecidableEq, Repr

/-- In-bounds functional update of the i-th element of a list; the
TypeScript handlers write `updated[i] = ...` on a copied array with an
index produced by `map`, which is always in bounds, and this function
agrees with that assignment on in-bounds indices. -/
def modifyIdx {α : Type} : List α → Nat → (α → α) → List α
  | [], _, _ => []
  | a :: as, 0, f => f a :: as
  | a :: as, n + 1, f => a :: modifyIdx as n f

/-- PlanReviewScreen.tsx handleTitleChange. -/
def handleTitleChange (p : BlogPlan) (newTitle : String) : BlogPlan :=
  { p with title := newTitle }

/-- PlanReviewScreen.tsx handleIntroChange. -/
def handleIntroChange (p : BlogPlan) (newIntro : String) : BlogPlan :=
  { p with intro := some newIntro }

/-- PlanReviewScreen.tsx handleSectionHeadingChange. -/
def handleSectionHeadingChange (p : BlogPlan) (sectionIndex : Nat)
    (newHeading : String) : BlogPlan :=
  { p with sections :=
      modifyIdx p.sections sectionIndex (fun s => { s with heading := newHeading }) }

/-- PlanReviewScreen.tsx handleSectionDescriptionChange. -/
def handleSectionDescriptionChange (p : BlogPlan) (sectionIndex : Nat)
    (newDescription : String) : BlogPlan :=
  let f : BlogSection → BlogSection := fun s => { s with description := some newDescription }
  { p with sections := modifyIdx p.sections sectionIndex f }

/-- PlanReviewScreen.tsx handleSubsectionHeadingChange. -/
def handleSubsectionHeadingChange (p : BlogPlan) (sectionIndex subsectionIndex : Nat)
    (newHeading : String) : BlogPlan :=
  let g : SubSection → SubSection := fun ss => { ss with heading := newHeading }
  let f : BlogSection → BlogSection :=
    fun s => { s with subsections := modifyIdx s.subsections subsectionIndex g }
  { p with sections := modifyIdx p.sections sectionIndex f }

/-- PlanReviewScreen.tsx handleSubsectionDescriptionChange. -/
def handleSubsectionDescriptionChange (p : BlogPlan) (sectionIndex subsectionIndex : Nat)
    (newDescription : String) : BlogPlan :=
  let g : SubSection → SubSection := fun ss => { ss with description := some newDescription }
  let f : BlogSection → BlogSection :=
    fun s => { s with subsections := modifyIdx s.subsections subsectionIndex g }
  { p with sections := modifyIdx p.sections sectionIndex f }

/-- PlanReviewScreen.tsx handleAddSubsection: pushes a fresh subsection with
heading "New Subsection" and null description onto section sectionIndex. -/
def handleAddSubsection (p : BlogPlan) (sectionIndex : Nat) : BlogPlan :=
  let f : BlogSection → BlogSection := fun s =>
    { s with subsections := s.subsections ++ [{ heading := "New Subsection", description := none }] }
  { p with sections := modifyIdx p.sections sectionIndex f }

/-- PlanReviewScreen.tsx handleRemoveSubsection: splices out the
subsectionIndex-th subsection of section sectionIndex. -/
def handleRemoveSubsection (p : BlogPlan) (sectionIndex subsectionIndex : Nat) : BlogPlan :=
  let f : BlogSection → BlogSection :=
    fun s => { s with subsections := s.subsections.eraseIdx subsectionIndex }
  { p with sections := modifyIdx p.sections sectionIndex f }

/-- The review-screen edit operations named by the data-model invariant:
title, intro, section heading/description, subsection heading/description. -/
inductive ReviewEdit where
  | titleChange (newTitle : String)
  | introChange (newIntro : String)
  | sectionHeadingChange (i : Nat) (newHeading : String)
  | sectionDescriptionChange (i : Nat) (newDescription : String)
  | subsectionHeadingChange (i j : Nat) (newHeading : String)
  | subsectionDescriptionChange (i j : Nat) (newDescription : String)
deriving DecidableEq, Repr

/-- Dispatch a review-screen edit to the PlanReviewScreen handler embedding. -/
def applyEdit (p : BlogPlan) : ReviewEdit → BlogPlan
  | .titleChange t => handleTitleChange p t
  | .introChange s => handleIntroChange p s
  | .sectionHeadingChange i h => handleSectionHeadingChange p i h
  | .sectionDescriptionChange i d => handleSectionDescriptionChange p i d
  | .subsectionHeadingChange i j h => handleSubsectionHeadingChange p i j h
  | .subsectionDescriptionChange i j d => handleSubsectionDescriptionChange p i j d

/-- Every section and subsection heading of the plan is non-empty. -/
def headingsNonEmpty (p : BlogPlan) : Prop :=
  ∀ s ∈ p.sections, s.heading ≠ "" ∧ ∀ ss ∈ s.subsections, ss.heading ≠ ""

instance (p : BlogPlan) : Decidable (headingsNonEmpty p) := by
  unfold headingsNonEmpty; infer_instance

/-- An HTTP response as the fetch API exposes it to lib/api.ts: a numeric
status, the parsed JSON body when it parses to the expected type, and the
detail field of a parsed JSON error body (none when the body is not JSON
or carries no detail). -/
structure HttpResponse (α : Type) where
  status : Nat
  body : Option α
  detail : Option String

/-- The fetch Response.ok flag: status in the range 200 to 299. -/
def responseOk (status : Nat) : Bool :=
  decide (200 ≤ status ∧ status < 300)

/-- The shared control flow of every function in lib/api.ts: when
response.ok is false, throw an Error whose message is error.detail if that
is a truthy string, else the fallback text; when ok, return the parsed
body (a non-JSON body in the ok case also throws, from response.json()). -/
def throwOnNonOk {α : Type} (r : HttpResponse α) : Except String α :=
  if responseOk r.status then
    match r.body with
    | some v => Except.ok v
    | none => Except.error "Unexpected end of JSON input"
  else
    match r.detail with
    | some d =>
        if d = "" then Except.error ("HTTP error! status: " ++ toString r.status)
        else Except.error d
    | none => Except.error ("HTTP error! status: " ++ toString r.status)

/-- lib/api.ts generatePlan: POST /generate-plan, throws on non-2xx. -/
def generatePlan (r : HttpResponse JobResponse) : Except String JobResponse :=
  throwOnNonOk r

/-- lib/api.ts getPlanStatus: GET /plan, throws on non-2xx. -/
def getPlanStatus (r : HttpResponse PlanStatusResponse) : Except String PlanStatusResponse :=
  throwOnNonOk r

/-- lib/api.ts generateBlog: POST /generate-blog, throws on non-2xx. -/
def generateBlog (r : HttpResponse JobResponse) : Except String JobResponse :=
  throwOnNonOk r

/-- lib/api.ts getBlogStatus: GET /blog, throws on non-2xx. -/
def getBlogStatus (r : HttpResponse BlogStatusResponse) : Except String BlogStatusResponse :=
  throwOnNonOk r

/-- True exactly when the call threw. -/
def isErr {α : Type} : Except String α → Bool
  | .ok _ => false
  | .error _ => true

/-- The component state the plan page's polling effect manipulates
(app/plan/[id]/page.tsx): the last stored status response, the isLoading
flag, whether the 2-second interval is still registered, and whether the
error alert fired. -/
structure PollState where
  planStatus : Option PlanStatusResponse
  isLoading : Bool
  intervalActive : Bool
  alerted : Bool
deriving DecidableEq, Repr

/-- State at effect mount in app/plan/[id]/page.tsx: no status yet,
isLoading true, the interval registered by the effect body. -/
def initialPollState : PollState :=
  { planStatus := none, isLoading := true, intervalActive := true, alerted := false }

/-- One run of fetchPlan in app/plan/[id]/page.tsx, applied to the result
of getPlanStatus: on success store the status and, if it is completed or
failed, stop loading and clear the interval; on a thrown error stop
loading, clear the interval and alert. -/
def fetchPlanStep (st : PollState) (r : Except String PlanStatusResponse) : PollState :=
  match r with
  | .ok status =>
      let st1 := { st with planStatus := some status }
      if status.status = JobStatus.completed ∨ status.status = JobStatus.failed then
        { st1 with isLoading := false, intervalActive := false }
      else
        { st1 with isLoading := true }
  | .error _ =>
      { st with isLoading := false, intervalActive := false, alerted := true }

/-- The interval length passed to setInterval by the polling effects
(app/plan/[id]/page.tsx line 65 and the home page pollStatus effect):
2000 milliseconds, so request k goes out at time k * POLL_INTERVAL_MS
with request 0 issued immediately at mount. -/
def POLL_INTERVAL_MS : Nat := 2000

/-- The polling session: state before tick k, where tick k issues a status
request (and runs fetchPlan on its response) exactly when the interval is
still registered. responses k is the outcome of the k-th request. -/
def pollRun (responses : Nat → Except String PlanStatusResponse) : Nat → PollState
  | 0 => initialPollState
  | k + 1 =>
      let st := pollRun responses k
      if st.intervalActive then fetchPlanStep st (responses k) else st

/-- Whether the k-th status request is issued: the immediate call at mount
for k = 0, and for later ticks only while the interval has not been
cleared. -/
def requestIssued (responses : Nat → Except String PlanStatusResponse) (k : Nat) : Bool :=
  (pollRun responses k).intervalActive

/-- What the plan page renders (app/plan/[id]/page.tsx lines 97 to 151). -/
inductive Screen where
  | loadingScreen (message : String)
  | nothingRendered
  | failedScreen (message : String)
  | reviewScreen (plan : BlogPlan)
deriving DecidableEq, Repr

/-- The optional-chained status comparison planStatus?.status === s. -/
def optStatusIs (st : Option PlanStatusResponse) (s : JobStatus) : Bool :=
  match st with
  | some ps => decide (ps.status = s)
  | none => false

/-- The error text shown by the failed branch: planStatus.error with the
fallback for a missing or empty (falsy) string. -/
def failedMessage (st : Option PlanStatusResponse) : String :=
  match st with
  | some ps =>
      match ps.error with
      | some e => if e = "" then "An unknown error occurred" else e
      | none => "An unknown error occurred"
  | none => "An unknown error occurred"

/-- The render function of PlanPage (app/plan/[id]/page.tsx): auth loading
screen, null when unauthenticated, the loading screen while isLoading or
isGeneratingBlog, the failed screen for a failed status, the review screen
for a completed status with a plan, and the final fallback loading
screen. -/
def renderPlanPage (authLoading user : Bool) (st : PollState)
    (isGeneratingBlog : Bool) : Screen :=
  if authLoading then Screen.loadingScreen "Loading..."
  else if !user then Screen.nothingRendered
  else if st.isLoading || isGeneratingBlog then
    Screen.loadingScreen
      (if isGeneratingBlog then "Generating your blog post..."
       else if optStatusIs st.planStatus JobStatus.processing then "Loading plan..."
       else "Loading...")
  else if optStatusIs st.planStatus JobStatus.failed then
    Screen.failedScreen (failedMessage st.planStatus)
  else
    match st.planStatus with
    | some ps =>
        match ps.plan with
        | some plan =>
            if ps.status = JobStatus.completed then Screen.reviewScreen plan
            else Screen.loadingScreen "Loading plan..."
        | none => Screen.loadingScreen "Loading plan..."
    | none => Screen.loadingScreen "Loading plan..."

/-- The externally visible outcome of the home page's handleGenerate:
whether an alert fired, the generate-plan request issued (none when no
network call was made) and the job id stored in state. -/
structure GenerateOutcome where
  alerted : Bool
  planRequested : Option GeneratePlanRequest
  jobId : Option String
deriving DecidableEq, Repr

/-- The whitespace class the JS String.prototype.trim removes, restricted
to its ASCII members: space, tab, line feed, carriage return, vertical tab
and form feed. -/
def isJsWhitespace (c : Char) : Bool :=
  c = ' ' || c = '\t' || c = '\n' || c = '\r' ||
    c = Char.ofNat 11 || c = Char.ofNat 12

/-- The JS topic.trim() on ASCII input: drop leading and trailing
whitespace characters. -/
def jsTrim (s : String) : String :=
  String.mk (((s.data.dropWhile isJsWhitespace).reverse.dropWhile isJsWhitespace).reverse)

/-- handleGenerate from the home page: if topic.trim() is falsy (the
empty string), alert and return without calling generatePlan or setting a
job id; otherwise call generatePlan with the topic as keyword and store
the returned job id, alerting instead if the call throws. -/
def handleGenerate (topic : String)
    (respond : GeneratePlanRequest → Except String JobResponse) : GenerateOutcome :=
  if jsTrim topic = "" then
    { alerted := true, planRequested := none, jobId := none }
  else
    match respond { keyword := topic } with
    | .ok r => { alerted := false, planRequested := some { keyword := topic }, jobId := some r.job_id }
    | .error _ => { alerted := true, planRequested := some { keyword := topic }, jobId := none }

/-- handleGenerateBlog in app/plan/[id]/page.tsx builds the generate-blog
request from the plan that PlanReviewScreen's Generate button passes to
onGenerate, together with the page's plan job id. -/
def buildGenerateBlogRequest (plan : BlogPlan) (planId : String) : GenerateBlogRequest :=
  { plan := plan, plan_job_id := some planId }

/-- Modelled from the spec: payload stored on a completed job (a BlogPlan
for plan jobs, drafted sections for blog jobs); the backend job records are
not under src. -/
inductive JobResult where
  | planResult (plan : BlogPlan)
  | blogResult (sections : List GeneratedBlogSection)
deriving DecidableEq, Repr

/-- Modelled from the spec: job kind tag, Plan or Blog. -/
inductive JobKind where
  | planJob
  | blogJob
deriving DecidableEq, Repr

/-- Modelled from the spec: job input, keyword for Plan jobs and a plan
with an optional plan_job_id for Blog jobs. -/
inductive JobInput where
  | planInput (keyword : String)
  | blogInput (plan : BlogPlan) (plan_job_id : Option String)
deriving DecidableEq, Repr

/-- Modelled from the spec: the JobStore record, with the status, result
and error fields of the data model plus the lease flag backing the atomic
claim. -/
structure Job where
  kind : JobKind
  input : JobInput
  status : JobStatus
  claimed : Bool
  result : Option JobResult
  error : Option String
  created_at : Nat
  updated_at : Nat
deriving DecidableEq, Repr

/-- Modelled from the spec: the JobStore as an association of job ids to
job records. -/
def JobStore : Type := List (String × Job)

/-- First-match lookup of a job id in the store. -/
def lookupJob : JobStore → String → Option Job
  | [], _ => none
  | (k, v) :: rest, jobId => if k = jobId then some v else lookupJob rest jobId

/-- Replace the record stored under jobId, leaving every other entry as it
was. -/
def setJob : JobStore → String → Job → JobStore
  | [], _, _ => []
  | (k, v) :: rest, jobId, j =>
      if k = jobId then (k, j) :: rest else (k, v) :: setJob rest jobId j

/-- Modelled from the spec: JobStore.create sets status Processing, no
result or error, both timestamps now; job ids are unique, so an existing
id is left untouched. -/
def createJob (store : JobStore) (jobId : String) (kind : JobKind)
    (input : JobInput) (now : Nat) : JobStore :=
  match lookupJob store jobId with
  | some _ => store
  | none =>
      (jobId, { kind := kind, input := input, status := JobStatus.processing,
                claimed := false, result := none, error := none,
                created_at := now, updated_at := now }) :: store

/-- Modelled from the spec: JobStore.claim, the atomic compare-and-swap
that takes an unclaimed Processing job to claimed and fails when the job
is unknown, already claimed or terminal. -/
def claimJob (store : JobStore) (jobId : String) : Bool × JobStore :=
  match lookupJob store jobId with
  | some j =>
      if j.status = JobStatus.processing ∧ j.claimed = false then
        (true, setJob store jobId { j with claimed := true })
      else (false, store)
  | none => (false, store)

/-- Modelled from the spec: JobStore.complete, an atomic transition to
Completed setting the result; a no-op on an unknown or already terminal
job. -/
def completeJob (store : JobStore) (jobId : String) (result : JobResult)
    (now : Nat) : JobStore :=
  match lookupJob store jobId with
  | some j =>
      if j.status = JobStatus.processing then
        setJob store jobId
          { j with status := JobStatus.completed, result := some result, updated_at := now }
      else store
  | none => store

/-- Modelled from the spec: JobStore.fail, an atomic transition to Failed
setting the error string; a no-op on an unknown or already terminal job. -/
def failJob (store : JobStore) (jobId : String) (message : String)
    (now : Nat) : JobStore :=
  match lookupJob store jobId with
  | some j =>
      if j.status = JobStatus.processing then
        setJob store jobId
          { j with status := JobStatus.failed, error := some message, updated_at := now }
      else store
  | none => store

/-- Modelled from the spec: JobStore.get, a pure read. -/
def getJob (store : JobStore) (jobId : String) : Option Job :=
  lookupJob store jobId

/-- One JobStore operation, the alphabet of the store's history. -/
inductive StoreOp where
  | createOp (jobId : String) (kind : JobKind) (input : JobInput) (now : Nat)
  | claimOp (jobId : String)
  | completeOp (jobId : String) (result : JobResult) (now : Nat)
  | failOp (jobId : String) (message : String) (now : Nat)
  | getOp (jobId : String)
deriving Repr

/-- Effect of one operation on the store. -/
def applyOp (store : JobStore) : StoreOp → JobStore
  | .createOp jobId kind input now => createJob store jobId kind input now
  | .claimOp jobId => (claimJob store jobId).2
  | .completeOp jobId result now => completeJob store jobId result now
  | .failOp jobId message now => failJob store jobId message now
  | .getOp _ => store

/-- n successive claim attempts on one job (claim is atomic, so any
interleaving of n concurrent attempts is some such sequence); returns the
number of successes and the final store. -/
def claimAttempts (store : JobStore) (jobId : String) : Nat → Nat × JobStore
  | 0 => (0, store)
  | n + 1 =>
      let r := claimJob store jobId
      let rest := claimAttempts r.2 jobId n
      ((if r.1 then 1 else 0) + rest.1, rest.2)

/-- Modelled from the spec: the stored record behind GET /plan, as the
backend persists it (the handler itself is not under src). -/
structure PlanJobRecord where
  status : JobStatus
  keyword : String
  created_at : String
  updated_at : String
  plan : Option BlogPlan
  error : Option String
deriving DecidableEq, Repr

/-- First-match lookup in the plan-jobs collection. -/
def lookupRecord : List (String × PlanJobRecord) → String → Option PlanJobRecord
  | [], _ => none
  | (k, v) :: rest, jobId => if k = jobId then some v else lookupRecord rest jobId

/-- The wire body GET /plan serves for a stored record. -/
def planStatusOf (jobId : String) (rec : PlanJobRecord) : PlanStatusResponse :=
  { job_id := jobId, status := rec.status, keyword := rec.keyword,
    created_at := rec.created_at, updated_at := rec.updated_at,
    plan := rec.plan, error := rec.error }

/-- Modelled from the spec: the backend GET /plan handler serves a 200
with the record's seven response fields when the job id is known and a
404 with a JSON detail when it is unknown. -/
def serveGetPlan (db : List (String × PlanJobRecord)) (jobId : String) :
    HttpResponse PlanStatusResponse :=
  match lookupRecord db jobId with
  | some rec => { status := 200, body := some (planStatusOf jobId rec), detail := none }
  | none => { status := 404, body := none, detail := some "Job not found" }

/-- Modelled from the spec: the BlogDrafter walks the plan's sections in
order and emits one GeneratedBlogSection per section, with index equal to
the section's position, heading the section's heading, and content from
the generation provider (abstracted as gen). -/
def draftSections (gen : Nat → BlogSection → String) : Nat → List BlogSection → List GeneratedBlogSection
  | _, [] => []
  | i, s :: rest =>
      { index := i, heading := s.heading, content := gen i s } :: draftSections gen (i + 1) rest

/-- Modelled from the spec: the blog job's drafting stage applied to the
submitted plan. -/
def draftBlog (gen : Nat → BlogSection → String) (p : BlogPlan) : List GeneratedBlogSection :=
  draftSections gen 0 p.sections

/-- The value written by a review-screen edit is non-empty whenever it is a
heading; description, title and intro edits are unconstrained. -/
def editHeadingNonEmpty : ReviewEdit → Prop
  | .sectionHeadingChange _ h => h ≠ ""
  | .subsectionHeadingChange _ _ h => h ≠ ""
  | _ => True

/-- The section index a review-screen edit targets (none for title and
intro edits, which touch no section). -/
def editSection : ReviewEdit → Option Nat
  | .titleChange _ => none
  | .introChange _ => none
  | .sectionHeadingChange i _ => some i
  | .sectionDescriptionChange i _ => some i
  | .subsectionHeadingChange i _ _ => some i
  | .subsectionDescriptionChange i _ _ => some i

/-- The subsection index a review-screen edit targets (none unless the
edit is a subsection heading or description change). -/
def editSubsection : ReviewEdit → Option Nat
  | .subsectionHeadingChange _ m _ => some m
  | .subsectionDescriptionChange _ m _ => some m
  | _ => none

/-- Concrete fixture: a plan whose first (and only) section is headed
"Intro". -/
def c6sec : BlogSection :=
  { heading := "Intro", description := none, subsections := [] }

def c6plan : BlogPlan :=
  { title := "T", intro := none, intro_length_guidance := "short", sections := [c6sec] }

def c7plan : BlogPlan :=
  { title := "T", intro := none, intro_length_guidance := "short",
    sections := [{ heading := "Intro", description := none, subsections := [] }] }

def c10sec : BlogSection :=
  { heading := "Intro", description := none,
    subsections := [{ heading := "Sub A", description := none }] }

def c10plan : BlogPlan :=
  { title := "T", intro := none, intro_length_guidance := "short", sections := [c10sec] }

/-- Concrete non-2xx responses. -/
def err404 : HttpResponse PlanStatusResponse :=
  { status := 404, body := none, detail := some "Job not found" }

def err500job : HttpResponse JobResponse :=
  { status := 500, body := none, detail := none }

def err500blog : HttpResponse BlogStatusResponse :=
  { status := 500, body := none, detail := none }

/-- A completed status response whose plan is null. -/
def completedNullPlan : PlanStatusResponse :=
  { job_id := "job-1", status := JobStatus.completed, keyword := "k",
    created_at := "t0", updated_at := "t1", plan := none, error := none }

/-- A terminal status response used as a concrete polling outcome. -/
def terminalStatusResponse : PlanStatusResponse :=
  { job_id := "job-2", status := JobStatus.completed, keyword := "k",
    created_at := "t0", updated_at := "t1", plan := none, error := none }

/-- A stored plan-job record for the GET /plan read. -/
def c5rec : PlanJobRecord :=
  { status := JobStatus.processing, keyword := "k", created_at := "t0",
    updated_at := "t0", plan := none, error := none }

/-- A terminal (completed) job record in the store. -/
def c1job : Job :=
  { kind := JobKind.blogJob, input := JobInput.planInput "k",
    status := JobStatus.completed, claimed := true,
    result := some (JobResult.blogResult []), error := none,
    created_at := 0, updated_at := 1 }

def c1store : JobStore := [("a", c1job)]

/-- A pending (processing, unclaimed) job record in the store. -/
def c2job : Job :=
  { kind := JobKind.planJob, input := JobInput.planInput "k",
    status := JobStatus.processing, claimed := false, result := none,
    error := none, created_at := 0, updated_at := 0 }

def c2store : JobStore := [("b", c2job)]

theorem modifyIdx_length {α : Type} (l : List α) (i : Nat) (f : α → α) :
    (modifyIdx l i f).length = l.length := by
  induction l generalizing i with
  | nil => rfl
  | cons a as ih =>
      cases i with
      | zero => rfl
      | succ n => simp [modifyIdx, ih]

theorem modifyIdx_get? {α : Type} (l : List α) (i : Nat) (f : α → α) (j : Nat) :
    (modifyIdx l i f).get? j = if j = i then (l.get? j).map f else l.get? j := by
  induction l generalizing i j with
  | nil => simp [modifyIdx]
  | cons a as ih =>
      cases i with
      | zero =>
          cases j with
          | zero => simp [modifyIdx]
          | succ m => simp [modifyIdx]
      | succ n =>
          cases j with
          | zero => simp [modifyIdx]
          | succ m => simpa [modifyIdx] using ih n m

theorem modifyIdx_forall {α : Type} {P : α → Prop} (l : List α) (i : Nat) (f : α → α)
    (hf : ∀ a, P a → P (f a)) (h : ∀ a ∈ l, P a) : ∀ a ∈ modifyIdx l i f, P a := by
  induction l generalizing i with
  | nil => simp [modifyIdx]
  | cons a as ih =>
      cases i with
      | zero =>
          intro b hb
          have hb' : b ∈ f a :: as := hb
          rcases List.mem_cons.mp hb' with hb2 | hb2
          · exact hb2 ▸ hf a (h a (List.mem_cons_self a as))
          · exact h b (List.mem_cons_of_mem a hb2)
      | succ n =>
          intro b hb
          have hb' : b ∈ a :: modifyIdx as n f := hb
          rcases List.mem_cons.mp hb' with hb2 | hb2
          · exact hb2 ▸ h a (List.mem_cons_self a as)
          · exact ih n (fun c hc => h c (List.mem_cons_of_mem a hc)) b hb2

theorem eraseIdx_get?_lt {α : Type} (l : List α) (i j : Nat) (h : j < i) :
    (l.eraseIdx i).get? j = l.get? j := by
  induction l generalizing i j with
  | nil => simp [List.eraseIdx]
  | cons a as ih =>
      cases i with
      | zero => omega
      | succ n =>
          cases j with
          | zero => simp [List.eraseIdx]
          | succ m =>
              have : m < n := by omega
              simpa [List.eraseIdx] using ih n m this

theorem eraseIdx_get?_ge {α : Type} (l : List α) (i j : Nat) (h : i ≤ j) :
    (l.eraseIdx i).get? j = l.get? (j + 1) := by
  induction l generalizing i j with
  | nil => simp [List.eraseIdx]
  | cons a as ih =>
      cases i with
      | zero =>
          simp [List.eraseIdx]
      | succ n =>
          cases j with
          | zero => omega
          | succ m =>
              have : n ≤ m := by omega
              simpa [List.eraseIdx] using ih n m this

theorem pollRun_frozen (responses : Nat → Except String PlanStatusResponse) (k : Nat)
    (h : (pollRun responses k).intervalActive = false) :
    ∀ m, k ≤ m → pollRun responses m = pollRun responses k := by
  intro m hm
  obtain ⟨d, rfl⟩ := Nat.exists_eq_add_of_le hm
  clear hm
  induction d with
  | zero => rfl
  | succ e ih =>
      have hin : (pollRun responses (k + e)).intervalActive = false := by
        rw [ih]; exact h
      show (if (pollRun responses (k + e)).intervalActive then
              fetchPlanStep (pollRun responses (k + e)) (responses (k + e))
            else pollRun responses (k + e)) = pollRun responses k
      rw [hin]
      simpa using ih

theorem lookupJob_setJob_self (store : JobStore) (jobId : String) (j0 j : Job)
    (h : lookupJob store jobId = some j0) :
    lookupJob (setJob store jobId j) jobId = some j := by
  induction store with
  | nil => simp [lookupJob] at h
  | cons kv rest ih =>
      obtain ⟨k, v⟩ := kv
      by_cases hk : k = jobId
      · simp [lookupJob, setJob, hk]
      · simp [lookupJob, setJob, hk] at h ⊢
        exact ih h

theorem lookupJob_setJob_other (store : JobStore) (jobId key : String) (j : Job)
    (h : key ≠ jobId) :
    lookupJob (setJob store jobId j) key = lookupJob store key := by
  induction store with
  | nil => simp [setJob]
  | cons kv rest ih =>
      obtain ⟨k, v⟩ := kv
      have hjk : jobId ≠ key := fun e => h e.symm
      by_cases hk : k = jobId
      · subst hk
        simp [lookupJob, setJob, hjk]
      · by_cases hk2 : k = key
        · subst hk2
          simp [lookupJob, setJob, hk]
        · simp [lookupJob, setJob, hk, hk2, ih]

theorem modifyIdx_get?_map {α β : Type} (l : List α) (i : Nat) (f : α → α) (g : α → β)
    (hf : ∀ a, g (f a) = g a) (j : Nat) :
    ((modifyIdx l i f).get? j).map g = (l.get? j).map g := by
  rw [modifyIdx_get?]
  by_cases hj : j = i
  · subst hj
    simp only [if_pos rfl]
    cases l.get? j with
    | none => rfl
    | some a => simp [hf]
  · simp [hj]

theorem append_get?_lt {α : Type} (l₁ l₂ : List α) (n : Nat) (h : n < l₁.length) :
    (l₁ ++ l₂).get? n = l₁.get? n := by
  induction l₁ generalizing n with
  | nil => simp at h
  | cons a as ih =>
      cases n with
      | zero => rfl
      | succ m => simpa using ih m (by simpa using h)

theorem append_singleton_get?_len {α : Type} (l : List α) (x : α) :
    (l ++ [x]).get? l.length = some x := by
  induction l with
  | nil => rfl
  | cons a as ih => simp [ih]

theorem eraseIdx_length_succ {α : Type} (l : List α) (i : Nat) (h : i < l.length) :
    (l.eraseIdx i).length + 1 = l.length := by
  induction l generalizing i with
  | nil => simp at h
  | cons a as ih =>
      cases i with
      | zero => simp [List.eraseIdx]
      | succ n =>
          have hn : n < as.length := by simpa using h
          have := ih n hn
          simp only [List.eraseIdx, List.length_cons]
          omega

/-- C6: editing the first section heading from "Intro" to "Overview" on the
review screen and pressing Generate passes the edited plan to generate-blog
unchanged, and the drafted blog's first GeneratedBlogSection carries the
heading "Overview". -/
theorem C6_edited_heading_reaches_blog (p : BlogPlan) (planId : String)
    (gen : Nat → BlogSection → String) (sec : BlogSection)
    (h0 : p.sections.get? 0 = some sec) (_hh : sec.heading = "Intro") :
    ((handleSectionHeadingChange p 0 "Overview").sections.get? 0).map BlogSection.heading
      = some "Overview" ∧
    (buildGenerateBlogRequest (handleSectionHeadingChange p 0 "Overview") planId).plan
      = handleSectionHeadingChange p 0 "Overview" ∧
    ((draftBlog gen (buildGenerateBlogRequest (handleSectionHeadingChange p 0 "Overview") planId).plan).get? 0).map GeneratedBlogSection.heading
      = some "Overview" := by
  cases hps : p.sections with
  | nil => rw [hps] at h0; cases h0
  | cons a rest =>
      refine ⟨?_, rfl, ?_⟩
      · simp [handleSectionHeadingChange, hps, modifyIdx]
      · simp [buildGenerateBlogRequest, draftBlog, handleSectionHeadingChange, hps,
              modifyIdx, draftSections]

theorem C6_witness :
    ((draftBlog (fun _ _ => "body") (buildGenerateBlogRequest (handleSectionHeadingChange c6plan 0 "Overview") "job-1").plan).get? 0).map GeneratedBlogSection.heading
      = some "Overview" :=
  (C6_edited_heading_reaches_blog c6plan "job-1" (fun _ _ => "body") c6sec rfl rfl).2.2

/-- C7 counterexample: the review screen performs no validation, so the
heading edit handleSectionHeadingChange 0 "" takes a plan whose headings
are all non-empty to a plan with an empty section heading; the claim that
every edit keeps every heading non-empty is false on the code. -/
theorem C7_counterexample :
    headingsNonEmpty c7plan ∧
    ¬ headingsNonEmpty (applyEdit c7plan (ReviewEdit.sectionHeadingChange 0 "")) := by
  decide

/-- C7 (amended): every review-screen edit operation preserves the number
and the order of sections and of each section's subsections: the section
count and every per-index subsection count are preserved, every section
other than the targeted one is unchanged, and inside the targeted section
every subsection other than the targeted one is unchanged and the heading
and description survive unless the edit writes exactly that field; and,
provided the heading value supplied by a heading edit is non-empty, every
section and subsection heading remains non-empty. -/
theorem C7_edit_preserves_structure (p : BlogPlan) (e : ReviewEdit)
    (hne : editHeadingNonEmpty e) (hp : headingsNonEmpty p) :
    (applyEdit p e).sections.length = p.sections.length ∧
    (∀ j, ((applyEdit p e).sections.get? j).map (fun s => s.subsections.length)
        = (p.sections.get? j).map (fun s => s.subsections.length)) ∧
    (∀ j, editSection e ≠ some j →
        (applyEdit p e).sections.get? j = p.sections.get? j) ∧
    (∀ j s s', editSection e = some j →
        p.sections.get? j = some s →
        (applyEdit p e).sections.get? j = some s' →
        (∀ m, editSubsection e ≠ some m →
            s'.subsections.get? m = s.subsections.get? m) ∧
        ((∀ t, e ≠ ReviewEdit.sectionHeadingChange j t) → s'.heading = s.heading) ∧
        ((∀ t, e ≠ ReviewEdit.sectionDescriptionChange j t) →
            s'.description = s.description)) ∧
    headingsNonEmpty (applyEdit p e) := by
  cases e with
  | titleChange t =>
      refine ⟨rfl, fun _ => rfl, fun _ _ => rfl, ?_, hp⟩
      intro j s s' hj
      exact Option.noConfusion hj
  | introChange s =>
      refine ⟨rfl, fun _ => rfl, fun _ _ => rfl, ?_, hp⟩
      intro j s s' hj
      exact Option.noConfusion hj
  | sectionHeadingChange i h =>
      refine ⟨modifyIdx_length _ _ _, ?_, ?_, ?_, ?_⟩
      · intro j
        exact modifyIdx_get?_map p.sections i (fun a => { a with heading := h })
          (fun s => s.subsections.length) (fun _ => rfl) j
      · intro j hj
        have hij : j ≠ i := fun e' => hj (by rw [e']; rfl)
        have h2 := modifyIdx_get? p.sections i (fun a => { a with heading := h }) j
        rw [if_neg hij] at h2
        exact h2
      · intro j s s' hj hs hs'
        have hij : i = j := Option.some.inj hj
        subst hij
        have hval : (applyEdit p (ReviewEdit.sectionHeadingChange i h)).sections.get? i
            = some { s with heading := h } := by
          have h2 := modifyIdx_get? p.sections i (fun a => { a with heading := h }) i
          rw [if_pos rfl, hs] at h2
          exact h2
        have hss : s' = { s with heading := h } := Option.some.inj (hs'.symm.trans hval)
        subst hss
        refine ⟨fun _ _ => rfl, ?_, fun _ => rfl⟩
        intro hnot
        exact absurd rfl (hnot h)
      · exact modifyIdx_forall p.sections i _ (fun a ha => ⟨hne, ha.2⟩) hp
  | sectionDescriptionChange i d =>
      refine ⟨modifyIdx_length _ _ _, ?_, ?_, ?_, ?_⟩
      · intro j
        exact modifyIdx_get?_map p.sections i (fun a => { a with description := some d })
          (fun s => s.subsections.length) (fun _ => rfl) j
      · intro j hj
        have hij : j ≠ i := fun e' => hj (by rw [e']; rfl)
        have h2 := modifyIdx_get? p.sections i (fun a => { a with description := some d }) j
        rw [if_neg hij] at h2
        exact h2
      · intro j s s' hj hs hs'
        have hij : i = j := Option.some.inj hj
        subst hij
        have hval : (applyEdit p (ReviewEdit.sectionDescriptionChange i d)).sections.get? i
            = some { s with description := some d } := by
          have h2 := modifyIdx_get? p.sections i (fun a => { a with description := some d }) i
          rw [if_pos rfl, hs] at h2
          exact h2
        have hss : s' = { s with description := some d } :=
          Option.some.inj (hs'.symm.trans hval)
        subst hss
        refine ⟨fun _ _ => rfl, fun _ => rfl, ?_⟩
        intro hnot
        exact absurd rfl (hnot d)
      · exact modifyIdx_forall p.sections i _ (fun a ha => ⟨ha.1, ha.2⟩) hp
  | subsectionHeadingChange i j h =>
      refine ⟨modifyIdx_length _ _ _, ?_, ?_, ?_, ?_⟩
      · intro m
        exact modifyIdx_get?_map p.sections i
          (fun a => { a with subsections := modifyIdx a.subsections j (fun ss => { ss with heading := h }) })
          (fun s => s.subsections.length)
          (fun a => modifyIdx_length a.subsections j _) m
      · intro m hm
        have him : m ≠ i := fun e' => hm (by rw [e']; rfl)
        have h2 := modifyIdx_get? p.sections i
          (fun a => { a with subsections := modifyIdx a.subsections j (fun ss => { ss with heading := h }) }) m
        rw [if_neg him] at h2
        exact h2
      · intro m s s' hm hs hs'
        have him : i = m := Option.some.inj hm
        subst him
        have hval : (applyEdit p (ReviewEdit.subsectionHeadingChange i j h)).sections.get? i
            = some { s with subsections := modifyIdx s.subsections j (fun ss => { ss with heading := h }) } := by
          have h2 := modifyIdx_get? p.sections i
            (fun a => { a with subsections := modifyIdx a.subsections j (fun ss => { ss with heading := h }) }) i
          rw [if_pos rfl, hs] at h2
          exact h2
        have hss : s' = { s with subsections := modifyIdx s.subsections j (fun ss => { ss with heading := h }) } :=
          Option.some.inj (hs'.symm.trans hval)
        subst hss
        refine ⟨?_, fun _ => rfl, fun _ => rfl⟩
        intro m' hm'
        have hjm : m' ≠ j := fun e' => hm' (by rw [e']; rfl)
        have h2 := modifyIdx_get? s.subsections j (fun ss => { ss with heading := h }) m'
        rw [if_neg hjm] at h2
        exact h2
      · exact modifyIdx_forall p.sections i _
          (fun a ha => ⟨ha.1, modifyIdx_forall a.subsections j _ (fun _ _ => hne) ha.2⟩) hp
  | subsectionDescriptionChange i j d =>
      refine ⟨modifyIdx_length _ _ _, ?_, ?_, ?_, ?_⟩
      · intro m
        exact modifyIdx_get?_map p.sections i
          (fun a => { a with subsections := modifyIdx a.subsections j (fun ss => { ss with description := some d }) })
          (fun s => s.subsections.length)
          (fun a => modifyIdx_length a.subsections j _) m
      · intro m hm
        have him : m ≠ i := fun e' => hm (by rw [e']; rfl)
        have h2 := modifyIdx_get? p.sections i
          (fun a => { a with subsections := modifyIdx a.subsections j (fun ss => { ss with description := some d }) }) m
        rw [if_neg him] at h2
        exact h2
      · intro m s s' hm hs hs'
        have him : i = m := Option.some.inj hm
        subst him
        have hval : (applyEdit p (ReviewEdit.subsectionDescriptionChange i j d)).sections.get? i
            = some { s with subsections := modifyIdx s.subsections j (fun ss => { ss with description := some d }) } := by
          have h2 := modifyIdx_get? p.sections i
            (fun a => { a with subsections := modifyIdx a.subsections j (fun ss => { ss with description := some d }) }) i
          rw [if_pos rfl, hs] at h2
          exact h2
        have hss : s' = { s with subsections := modifyIdx s.subsections j (fun ss => { ss with description := some d }) } :=
          Option.some.inj (hs'.symm.trans hval)
        subst hss
        refine ⟨?_, fun _ => rfl, fun _ => rfl⟩
        intro m' hm'
        have hjm : m' ≠ j := fun e' => hm' (by rw [e']; rfl)
        have h2 := modifyIdx_get? s.subsections j (fun ss => { ss with description := some d }) m'
        rw [if_neg hjm] at h2
        exact h2
      · exact modifyIdx_forall p.sections i _
          (fun a ha => ⟨ha.1, modifyIdx_forall a.subsections j _ (fun ss hss => hss) ha.2⟩) hp

theorem C7_witness :
    (applyEdit c7plan (ReviewEdit.sectionHeadingChange 0 "Overview")).sections.length
      = c7plan.sections.length ∧
    headingsNonEmpty (applyEdit c7plan (ReviewEdit.sectionHeadingChange 0 "Overview")) :=
  ⟨(C7_edit_preserves_structure c7plan (ReviewEdit.sectionHeadingChange 0 "Overview")
      (by decide : "Overview" ≠ "") (by decide)).1,
   (C7_edit_preserves_structure c7plan (ReviewEdit.sectionHeadingChange 0 "Overview")
      (by decide : "Overview" ≠ "") (by decide)).2.2.2.2⟩

/-- C8: when the topic trims to the empty string, handleGenerate alerts and
returns before any network call, so generatePlan is never invoked, no job
id is stored, and nothing is submitted to POST /generate-plan. -/
theorem C8_empty_topic_no_request (topic : String)
    (respond : GeneratePlanRequest → Except String JobResponse)
    (h : jsTrim topic = "") :
    (handleGenerate topic respond).planRequested = none ∧
    (handleGenerate topic respond).jobId = none ∧
    (handleGenerate topic respond).alerted = true := by
  simp [handleGenerate, h]

theorem C8_witness :
    (handleGenerate "   " (fun _ => Except.error "unreachable")).planRequested = none ∧
    (handleGenerate "   " (fun _ => Except.error "unreachable")).jobId = none ∧
    (handleGenerate "   " (fun _ => Except.error "unreachable")).alerted = true :=
  C8_empty_topic_no_request "   " (fun _ => Except.error "unreachable") (by decide)

/-- C10: handleAddSubsection appends exactly one subsection with heading
"New Subsection" and null description at the end of the chosen section's
subsections, handleRemoveSubsection removes exactly the chosen subsection,
and in both cases every other subsection, every other section, and the
title, intro and intro_length_guidance fields are unchanged. -/
theorem C10_add_remove_subsection (p : BlogPlan) (s i : Nat) (sec : BlogSection)
    (hs : p.sections.get? s = some sec) (hi : i < sec.subsections.length) :
    (∃ sec', (handleAddSubsection p s).sections.get? s = some sec' ∧
       sec'.heading = sec.heading ∧ sec'.description = sec.description ∧
       sec'.subsections.length = sec.subsections.length + 1 ∧
       (∀ j, j < sec.subsections.length → sec'.subsections.get? j = sec.subsections.get? j) ∧
       sec'.subsections.get? sec.subsections.length
         = some { heading := "New Subsection", description := none }) ∧
    (∃ sec', (handleRemoveSubsection p s i).sections.get? s = some sec' ∧
       sec'.heading = sec.heading ∧ sec'.description = sec.description ∧
       sec'.subsections.length + 1 = sec.subsections.length ∧
       (∀ j, j < i → sec'.subsections.get? j = sec.subsections.get? j) ∧
       (∀ j, i ≤ j → sec'.subsections.get? j = sec.subsections.get? (j + 1))) ∧
    (∀ t, t ≠ s → (handleAddSubsection p s).sections.get? t = p.sections.get? t ∧
        (handleRemoveSubsection p s i).sections.get? t = p.sections.get? t) ∧
    (handleAddSubsection p s).title = p.title ∧
    (handleAddSubsection p s).intro = p.intro ∧
    (handleAddSubsection p s).intro_length_guidance = p.intro_length_guidance ∧
    (handleRemoveSubsection p s i).title = p.title ∧
    (handleRemoveSubsection p s i).intro = p.intro ∧
    (handleRemoveSubsection p s i).intro_length_guidance = p.intro_length_guidance := by
  have haddEq : (handleAddSubsection p s).sections.get? s
      = some { sec with subsections :=
          sec.subsections ++ [{ heading := "New Subsection", description := none }] } := by
    have := modifyIdx_get? p.sections s
      (fun sc => { sc with subsections :=
        sc.subsections ++ [{ heading := "New Subsection", description := none }] }) s
    rw [if_pos rfl, hs] at this
    exact this
  have hremEq : (handleRemoveSubsection p s i).sections.get? s
      = some { sec with subsections := sec.subsections.eraseIdx i } := by
    have := modifyIdx_get? p.sections s
      (fun sc => { sc with subsections := sc.subsections.eraseIdx i }) s
    rw [if_pos rfl, hs] at this
    exact this
  refine ⟨?_, ?_, ?_, rfl, rfl, rfl, rfl, rfl, rfl⟩
  · refine ⟨_, haddEq, rfl, rfl, ?_, ?_, ?_⟩
    · simp
    · intro j hj
      exact append_get?_lt sec.subsections _ j hj
    · exact append_singleton_get?_len sec.subsections _
  · refine ⟨_, hremEq, rfl, rfl, ?_, ?_, ?_⟩
    · exact eraseIdx_length_succ sec.subsections i hi
    · intro j hj
      exact eraseIdx_get?_lt sec.subsections i j hj
    · intro j hj
      exact eraseIdx_get?_ge sec.subsections i j hj
  · intro t ht
    constructor
    · have := modifyIdx_get? p.sections s
        (fun sc => { sc with subsections :=
          sc.subsections ++ [{ heading := "New Subsection", description := none }] }) t
      rw [if_neg ht] at this
      exact this
    · have := modifyIdx_get? p.sections s
        (fun sc => { sc with subsections := sc.subsections.eraseIdx i }) t
      rw [if_neg ht] at this
      exact this

theorem C10_witness :
    (handleAddSubsection c10plan 0).title = c10plan.title ∧
    (handleRemoveSubsection c10plan 0 0).intro = c10plan.intro :=
  ⟨(C10_add_remove_subsection c10plan 0 0 c10sec rfl (by decide)).2.2.2.1,
   (C10_add_remove_subsection c10plan 0 0 c10sec rfl (by decide)).2.2.2.2.2.2.2.1⟩

theorem pollRun_step_active (responses : Nat → Except String PlanStatusResponse) (k : Nat)
    (hk : (pollRun responses k).intervalActive = true) :
    pollRun responses (k + 1) = fetchPlanStep (pollRun responses k) (responses k) := by
  show (if (pollRun responses k).intervalActive then
          fetchPlanStep (pollRun responses k) (responses k)
        else pollRun responses k) = _
  rw [hk]
  rfl

theorem isErr_throwOnNonOk {α : Type} (r : HttpResponse α)
    (h : responseOk r.status = false) : isErr (throwOnNonOk r) = true := by
  unfold throwOnNonOk
  rw [h]
  simp only [Bool.false_eq_true, if_false]
  cases r.detail with
  | none => rfl
  | some d => by_cases hd : d = "" <;> simp [hd, isErr]

/-- C3: the plan-status polling session issues its first request
immediately at mount and one request per POLL_INTERVAL_MS = 2000
milliseconds tick afterwards, and the first observed completed or failed
status clears the interval, after which no further status request is ever
issued. -/
theorem C3_poll_stops_on_terminal (responses : Nat → Except String PlanStatusResponse)
    (k : Nat) (st : PlanStatusResponse)
    (hk : requestIssued responses k = true)
    (hr : responses k = Except.ok st)
    (ht : st.status = JobStatus.completed ∨ st.status = JobStatus.failed) :
    POLL_INTERVAL_MS = 2000 ∧
    requestIssued responses 0 = true ∧
    ∀ m, k < m → requestIssued responses m = false := by
  refine ⟨rfl, rfl, ?_⟩
  have hstep := pollRun_step_active responses k hk
  have hinact : (pollRun responses (k + 1)).intervalActive = false := by
    rw [hstep, hr]
    simp [fetchPlanStep, ht]
  intro m hm
  unfold requestIssued
  rw [pollRun_frozen responses (k + 1) hinact m hm]
  exact hinact

theorem C3_witness :
    POLL_INTERVAL_MS = 2000 ∧
    requestIssued (fun _ => Except.ok terminalStatusResponse) 0 = true ∧
    ∀ m, 0 < m → requestIssued (fun _ => Except.ok terminalStatusResponse) m = false :=
  C3_poll_stops_on_terminal (fun _ => Except.ok terminalStatusResponse) 0
    terminalStatusResponse rfl rfl (Or.inl rfl)

/-- C4: every api-client function throws on a non-2xx response (the fetch
ok flag is false), and an error reaching fetchPlan clears the interval,
alerts, and is never retried: no later status request is issued. -/
theorem C4_non2xx_fatal
    (r1 : HttpResponse JobResponse) (r2 : HttpResponse PlanStatusResponse)
    (r3 : HttpResponse JobResponse) (r4 : HttpResponse BlogStatusResponse)
    (h1 : responseOk r1.status = false) (h2 : responseOk r2.status = false)
    (h3 : responseOk r3.status = false) (h4 : responseOk r4.status = false)
    (responses : Nat → Except String PlanStatusResponse) (k : Nat) (e : String)
    (hk : requestIssued responses k = true)
    (he : responses k = Except.error e) :
    isErr (generatePlan r1) = true ∧ isErr (getPlanStatus r2) = true ∧
    isErr (generateBlog r3) = true ∧ isErr (getBlogStatus r4) = true ∧
    (pollRun responses (k + 1)).intervalActive = false ∧
    (pollRun responses (k + 1)).alerted = true ∧
    ∀ m, k < m → requestIssued responses m = false := by
  have hstep := pollRun_step_active responses k hk
  have hinact : (pollRun responses (k + 1)).intervalActive = false := by
    rw [hstep, he]
    simp [fetchPlanStep]
  have halert : (pollRun responses (k + 1)).alerted = true := by
    rw [hstep, he]
    simp [fetchPlanStep]
  refine ⟨isErr_throwOnNonOk r1 h1, isErr_throwOnNonOk r2 h2,
          isErr_throwOnNonOk r3 h3, isErr_throwOnNonOk r4 h4, hinact, halert, ?_⟩
  intro m hm
  unfold requestIssued
  rw [pollRun_frozen responses (k + 1) hinact m hm]
  exact hinact

theorem C4_witness :
    isErr (getPlanStatus err404) = true ∧
    (pollRun (fun _ => Except.error "HTTP error! status: 404") 1).intervalActive = false :=
  ⟨(C4_non2xx_fatal err500job err404 err500job err500blog rfl rfl rfl rfl
      (fun _ => Except.error "HTTP error! status: 404") 0 "HTTP error! status: 404"
      rfl rfl).2.1,
   (C4_non2xx_fatal err500job err404 err500job err500blog rfl rfl rfl rfl
      (fun _ => Except.error "HTTP error! status: 404") 0 "HTTP error! status: 404"
      rfl rfl).2.2.2.2.1⟩

/-- C9: a completed status with a null plan clears the interval like any
terminal status, and every later render of the plan page falls through to
the final "Loading plan..." screen; the review screen and the error screen
are never shown, so the page stays loading indefinitely. -/
theorem C9_completed_null_plan_loads_forever
    (responses : Nat → Except String PlanStatusResponse) (k : Nat)
    (ps : PlanStatusResponse)
    (hk : requestIssued responses k = true)
    (hr : responses k = Except.ok ps)
    (hs : ps.status = JobStatus.completed)
    (hp : ps.plan = none) :
    (pollRun responses (k + 1)).intervalActive = false ∧
    ∀ m, k < m →
      requestIssued responses m = false ∧
      renderPlanPage false true (pollRun responses m) false
        = Screen.loadingScreen "Loading plan..." ∧
      (∀ plan, renderPlanPage false true (pollRun responses m) false
        ≠ Screen.reviewScreen plan) ∧
      (∀ msg, renderPlanPage false true (pollRun responses m) false
        ≠ Screen.failedScreen msg) := by
  have hstep := pollRun_step_active responses k hk
  have hterm : ps.status = JobStatus.completed ∨ ps.status = JobStatus.failed := Or.inl hs
  have hst : pollRun responses (k + 1)
      = { planStatus := some ps, isLoading := false, intervalActive := false,
          alerted := (pollRun responses k).alerted } := by
    rw [hstep, hr]
    simp [fetchPlanStep, hterm]
  have hinact : (pollRun responses (k + 1)).intervalActive = false := by rw [hst]
  have hfail : optStatusIs (some ps) JobStatus.failed = false := by
    show decide (ps.status = JobStatus.failed) = false
    rw [hs]
    rfl
  have hrender : renderPlanPage false true (pollRun responses (k + 1)) false
      = Screen.loadingScreen "Loading plan..." := by
    rw [hst]
    unfold renderPlanPage
    simp [hfail, hp]
  refine ⟨hinact, ?_⟩
  intro m hm
  have hfrozen := pollRun_frozen responses (k + 1) hinact m hm
  refine ⟨?_, ?_, ?_, ?_⟩
  · unfold requestIssued
    rw [hfrozen]
    exact hinact
  · rw [hfrozen]
    exact hrender
  · intro plan hcon
    rw [hfrozen, hrender] at hcon
    cases hcon
  · intro msg hcon
    rw [hfrozen, hrender] at hcon
    cases hcon

theorem C9_witness :
    (pollRun (fun _ => Except.ok completedNullPlan) 1).intervalActive = false ∧
    renderPlanPage false true (pollRun (fun _ => Except.ok completedNullPlan) 2) false
      = Screen.loadingScreen "Loading plan..." :=
  ⟨(C9_completed_null_plan_loads_forever (fun _ => Except.ok completedNullPlan) 0
      completedNullPlan rfl rfl rfl rfl).1,
   ((C9_completed_null_plan_loads_forever (fun _ => Except.ok completedNullPlan) 0
      completedNullPlan rfl rfl rfl rfl).2 2 (by decide)).2.1⟩

/-- C5: a known job id makes GET /plan answer 200 with exactly the seven
response fields built from the stored record, and the client returns that
record; an unknown job id answers 404, which getPlanStatus surfaces as a
thrown lookup failure, never as a status record. -/
theorem C5_get_plan_contract (db : List (String × PlanJobRecord)) (jobId : String) :
    (∀ rec, lookupRecord db jobId = some rec →
        getPlanStatus (serveGetPlan db jobId) = Except.ok (planStatusOf jobId rec) ∧
        planStatusOf jobId rec
          = { job_id := jobId, status := rec.status, keyword := rec.keyword,
              created_at := rec.created_at, updated_at := rec.updated_at,
              plan := rec.plan, error := rec.error }) ∧
    (lookupRecord db jobId = none →
        (serveGetPlan db jobId).status = 404 ∧
        isErr (getPlanStatus (serveGetPlan db jobId)) = true) := by
  constructor
  · intro rec hrec
    refine ⟨?_, rfl⟩
    unfold serveGetPlan
    simp only [hrec]
    rfl
  · intro hnone
    unfold serveGetPlan
    simp only [hnone]
    exact ⟨trivial, rfl⟩

theorem C5_witness :
    getPlanStatus (serveGetPlan [("a", c5rec)] "a") = Except.ok (planStatusOf "a" c5rec) ∧
    isErr (getPlanStatus (serveGetPlan [("a", c5rec)] "missing")) = true :=
  ⟨((C5_get_plan_contract [("a", c5rec)] "a").1 c5rec rfl).1,
   ((C5_get_plan_contract [("a", c5rec)] "missing").2 rfl).2⟩

theorem lookupJob_cons_ne (k jobId : String) (v : Job) (rest : JobStore)
    (h : k ≠ jobId) : lookupJob ((k, v) :: rest) jobId = lookupJob rest jobId := by
  simp [lookupJob, h]

/-- After any single store operation, the record under a job id is either
untouched or, when it was still Processing, claimed, completed or failed. -/
theorem lookupJob_applyOp (store : JobStore) (op : StoreOp) (jobId : String) (j : Job)
    (hj : lookupJob store jobId = some j) :
    ∃ j', lookupJob (applyOp store op) jobId = some j' ∧
      (j' = j ∨
        (j.status = JobStatus.processing ∧
          (j' = { j with claimed := true } ∨
           (∃ res now, j' = { j with status := JobStatus.completed, result := some res, updated_at := now }) ∨
           (∃ msg now, j' = { j with status := JobStatus.failed, error := some msg, updated_at := now })))) := by
  cases op with
  | getOp id' => exact ⟨j, hj, Or.inl rfl⟩
  | createOp id' kind input now =>
      cases hl : lookupJob store id' with
      | some j0 =>
          refine ⟨j, ?_, Or.inl rfl⟩
          show lookupJob (createJob store id' kind input now) jobId = some j
          unfold createJob
          simp only [hl]
          exact hj
      | none =>
          have hne : id' ≠ jobId := by
            intro e
            rw [e, hj] at hl
            cases hl
          refine ⟨j, ?_, Or.inl rfl⟩
          show lookupJob (createJob store id' kind input now) jobId = some j
          unfold createJob
          simp only [hl]
          rw [lookupJob_cons_ne id' jobId _ store hne]
          exact hj
  | claimOp id' =>
      by_cases hid : id' = jobId
      · subst hid
        show ∃ j', lookupJob (claimJob store id').2 id' = some j' ∧ _
        unfold claimJob
        simp only [hj]
        by_cases hc : j.status = JobStatus.processing ∧ j.claimed = false
        · rw [if_pos hc]
          exact ⟨{ j with claimed := true },
            lookupJob_setJob_self store id' j { j with claimed := true } hj,
            Or.inr ⟨hc.1, Or.inl rfl⟩⟩
        · rw [if_neg hc]
          exact ⟨j, hj, Or.inl rfl⟩
      · have hother : jobId ≠ id' := fun e => hid e.symm
        cases hl : lookupJob store id' with
        | none =>
            refine ⟨j, ?_, Or.inl rfl⟩
            show lookupJob (claimJob store id').2 jobId = some j
            unfold claimJob
            simp only [hl]
            exact hj
        | some j0 =>
            by_cases hc : j0.status = JobStatus.processing ∧ j0.claimed = false
            · refine ⟨j, ?_, Or.inl rfl⟩
              show lookupJob (claimJob store id').2 jobId = some j
              unfold claimJob
              simp only [hl]
              rw [if_pos hc]
              show lookupJob (setJob store id' { j0 with claimed := true }) jobId = some j
              rw [lookupJob_setJob_other store id' jobId { j0 with claimed := true } hother]
              exact hj
            · refine ⟨j, ?_, Or.inl rfl⟩
              show lookupJob (claimJob store id').2 jobId = some j
              unfold claimJob
              simp only [hl]
              rw [if_neg hc]
              exact hj
  | completeOp id' res now =>
      by_cases hid : id' = jobId
      · subst hid
        show ∃ j', lookupJob (completeJob store id' res now) id' = some j' ∧ _
        unfold completeJob
        simp only [hj]
        by_cases hc : j.status = JobStatus.processing
        · rw [if_pos hc]
          exact ⟨{ j with status := JobStatus.completed, result := some res, updated_at := now },
            lookupJob_setJob_self store id' j _ hj,
            Or.inr ⟨hc, Or.inr (Or.inl ⟨res, now, rfl⟩)⟩⟩
        · rw [if_neg hc]
          exact ⟨j, hj, Or.inl rfl⟩
      · have hother : jobId ≠ id' := fun e => hid e.symm
        cases hl : lookupJob store id' with
        | none =>
            refine ⟨j, ?_, Or.inl rfl⟩
            show lookupJob (completeJob store id' res now) jobId = some j
            unfold completeJob
            simp only [hl]
            exact hj
        | some j0 =>
            by_cases hc : j0.status = JobStatus.processing
            · refine ⟨j, ?_, Or.inl rfl⟩
              show lookupJob (completeJob store id' res now) jobId = some j
              unfold completeJob
              simp only [hl]
              rw [if_pos hc]
              rw [lookupJob_setJob_other store id' jobId _ hother]
              exact hj
            · refine ⟨j, ?_, Or.inl rfl⟩
              show lookupJob (completeJob store id' res now) jobId = some j
              unfold completeJob
              simp only [hl]
              rw [if_neg hc]
              exact hj
  | failOp id' msg now =>
      by_cases hid : id' = jobId
      · subst hid
        show ∃ j', lookupJob (failJob store id' msg now) id' = some j' ∧ _
        unfold failJob
        simp only [hj]
        by_cases hc : j.status = JobStatus.processing
        · rw [if_pos hc]
          exact ⟨{ j with status := JobStatus.failed, error := some msg, updated_at := now },
            lookupJob_setJob_self store id' j _ hj,
            Or.inr ⟨hc, Or.inr (Or.inr ⟨msg, now, rfl⟩)⟩⟩
        · rw [if_neg hc]
          exact ⟨j, hj, Or.inl rfl⟩
      · have hother : jobId ≠ id' := fun e => hid e.symm
        cases hl : lookupJob store id' with
        | none =>
            refine ⟨j, ?_, Or.inl rfl⟩
            show lookupJob (failJob store id' msg now) jobId = some j
            unfold failJob
            simp only [hl]
            exact hj
        | some j0 =>
            by_cases hc : j0.status = JobStatus.processing
            · refine ⟨j, ?_, Or.inl rfl⟩
              show lookupJob (failJob store id' msg now) jobId = some j
              unfold failJob
              simp only [hl]
              rw [if_pos hc]
              rw [lookupJob_setJob_other store id' jobId _ hother]
              exact hj
            · refine ⟨j, ?_, Or.inl rfl⟩
              show lookupJob (failJob store id' msg now) jobId = some j
              unfold failJob
              simp only [hl]
              rw [if_neg hc]
              exact hj

/-- C1: the status field takes only the three enum values, a terminal
(Completed or Failed) job is never changed by any further store operation,
and any status change an operation makes goes from Processing to Completed
or from Processing to Failed. -/
theorem C1_status_monotone_terminal_immutable (store : JobStore) (op : StoreOp)
    (jobId : String) (j : Job) (hj : lookupJob store jobId = some j) :
    (j.status = JobStatus.processing ∨ j.status = JobStatus.completed ∨
        j.status = JobStatus.failed) ∧
    ((j.status = JobStatus.completed ∨ j.status = JobStatus.failed) →
        lookupJob (applyOp store op) jobId = some j) ∧
    (∀ j'', lookupJob (applyOp store op) jobId = some j'' →
        j''.status = j.status ∨
          (j.status = JobStatus.processing ∧
            (j''.status = JobStatus.completed ∨ j''.status = JobStatus.failed))) := by
  obtain ⟨j', hj', hcases⟩ := lookupJob_applyOp store op jobId j hj
  refine ⟨?_, ?_, ?_⟩
  · cases j.status with
    | processing => exact Or.inl rfl
    | completed => exact Or.inr (Or.inl rfl)
    | failed => exact Or.inr (Or.inr rfl)
  · intro hterm
    rcases hcases with h | ⟨hproc, _⟩
    · rw [hj', h]
    · rw [hproc] at hterm
      simp at hterm
  · intro j'' hj''
    have heq : j'' = j' := Option.some.inj (hj''.symm.trans hj')
    subst heq
    rcases hcases with h | ⟨hproc, hkind⟩
    · subst h
      exact Or.inl rfl
    · rcases hkind with h | ⟨res, now, h⟩ | ⟨msg, now, h⟩
      · subst h
        exact Or.inl rfl
      · subst h
        exact Or.inr ⟨hproc, Or.inl rfl⟩
      · subst h
        exact Or.inr ⟨hproc, Or.inr rfl⟩

theorem C1_witness :
    lookupJob (applyOp c1store (StoreOp.failOp "a" "boom" 5)) "a" = some c1job :=
  (C1_status_monotone_terminal_immutable c1store (StoreOp.failOp "a" "boom" 5)
    "a" c1job rfl).2.1 (Or.inl rfl)

theorem claimAttempts_claimed (store : JobStore) (jobId : String) (j : Job) (m : Nat)
    (hj : lookupJob store jobId = some j) (hc : j.claimed = true) :
    claimAttempts store jobId m = (0, store) := by
  have hnot : ¬ (j.status = JobStatus.processing ∧ j.claimed = false) := by
    intro hcon
    rw [hc] at hcon
    exact absurd hcon.2 (by decide)
  have hclaim : claimJob store jobId = (false, store) := by
    unfold claimJob
    simp only [hj]
    rw [if_neg hnot]
  induction m with
  | zero => rfl
  | succ n ih =>
      unfold claimAttempts
      rw [hclaim]
      simp [ih]

/-- C2: claim is exclusive: for a PENDING (Processing and unclaimed) job,
any number n of claim attempts (claim is atomic, so every interleaving of
n concurrent attempts is such a sequence) yields exactly one success. -/
theorem C2_claim_exclusive (store : JobStore) (jobId : String) (j : Job) (n : Nat)
    (hj : lookupJob store jobId = some j)
    (hs : j.status = JobStatus.processing) (hc : j.claimed = false) (hn : 1 ≤ n) :
    (claimAttempts store jobId n).1 = 1 := by
  obtain ⟨m, rfl⟩ : ∃ m, n = m + 1 := ⟨n - 1, by omega⟩
  have hclaim : claimJob store jobId
      = (true, setJob store jobId { j with claimed := true }) := by
    unfold claimJob
    simp only [hj]
    rw [if_pos ⟨hs, hc⟩]
  have hlook : lookupJob (setJob store jobId { j with claimed := true }) jobId
      = some { j with claimed := true } :=
    lookupJob_setJob_self store jobId j { j with claimed := true } hj
  have hrest : claimAttempts (setJob store jobId { j with claimed := true }) jobId m
      = (0, setJob store jobId { j with claimed := true }) :=
    claimAttempts_claimed _ jobId { j with claimed := true } m hlook rfl
  unfold claimAttempts
  rw [hclaim]
  simp [hrest]

theorem C2_witness : (claimAttempts c2store "b" 3).1 = 1 :=
  C2_claim_exclusive c2store "b" c2job 3 rfl rfl rfl (by decide)

end BlogWriter
